import Mathlib

/-!
# MindHeist — verification of the economy and event engines

Shallow embedding of the balance-mutating operations of the MindHeist
Discord bot (cogs `daily.py`, `quiz.py`, `gold.py`, `robbery.py`,
`admin.py`) and of the Golden Event answer/scheduler logic, together
with proofs about the spec's testable properties.

Conventions: SQL integer columns are modelled as `Int` (with the
`GREATEST(0, _)` clamps written as `max 0 _`), wall-clock quantities
(hours, minutes, seconds, random draws) as `ℚ`, user ids as `Nat`.
Each operation is translated statement-by-statement from the Python
source named in its doc comment.
-/

namespace MindHeist

/-- One `users` row, restricted to the columns the economy operations
mutate (`points`, `money`, `gold_wins`). -/
structure Account where
  points : Int
  money : Int
  goldWins : Nat
  deriving Repr, DecidableEq

/-- One `transactions` row (`user_id`, `tx_type`, `points_delta`,
`money_delta`). -/
structure Txn where
  userId : Nat
  txType : String
  pointsDelta : Int
  moneyDelta : Int
  deriving Repr, DecidableEq

/-- One `robberies` row (`attacker_id`, `victim_id`, `success`,
`points_changed`). -/
structure RobberyRecord where
  attackerId : Nat
  victimId : Nat
  success : Bool
  pointsChanged : Int
  deriving Repr, DecidableEq

/-- One `answer_history` row, restricted to what the claims need. -/
structure AnswerRecord where
  userId : Nat
  questionId : Nat
  context : String
  isCorrect : Bool
  pointsEarned : Int
  deriving Repr, DecidableEq

/-- The persistent store: `users` balances plus the append-only
`transactions`, `robberies`, `answer_history` and `questions` tables. -/
structure EconState where
  accounts : Nat → Account
  txns : List Txn
  robberies : List RobberyRecord
  answerHistory : List AnswerRecord
  questions : List Nat

/-- Point-wise update of one user's row, as a SQL
`UPDATE users ... WHERE user_id = uid` does. -/
def updAcct (f : Nat → Account) (uid : Nat) (g : Account → Account) :
    Nat → Account :=
  fun u => if u = uid then g (f u) else f u

/-- `DailyCog._update_user_points` (daily.py 511-521): credit `p` to both
`points` and `money` and insert one `('daily', p, p)` transaction. -/
def dailyUpdateUserPoints (s : EconState) (uid : Nat) (p : Int) : EconState :=
  { s with
    accounts := updAcct s.accounts uid
      (fun a => { a with points := a.points + p, money := a.money + p })
    txns := s.txns ++ [⟨uid, "daily", p, p⟩] }

/-- `QuizCog._update_user_points` (quiz.py 522-540): credit `p` to both
`points` and `money` and insert one `('quiz', p, p)` transaction. -/
def quizUpdateUserPoints (s : EconState) (uid : Nat) (p : Int) : EconState :=
  { s with
    accounts := updAcct s.accounts uid
      (fun a => { a with points := a.points + p, money := a.money + p })
    txns := s.txns ++ [⟨uid, "quiz", p, p⟩] }

/-- Golden Event winner settlement, balances part (gold.py 340-357):
credit `total_reward` to `points` and `money`, increment `gold_wins`,
insert one `('gold', total, total)` transaction. -/
def goldWinSettle (s : EconState) (uid : Nat) (total : Int) : EconState :=
  { s with
    accounts := updAcct s.accounts uid
      (fun a => { a with
        points := a.points + total
        money := a.money + total
        goldWins := a.goldWins + 1 })
    txns := s.txns ++ [⟨uid, "gold", total, total⟩] }

/-- `RobberyCog.escudo` (robbery.py 227-281), after the user row exists:
`cost = max(1, 5 * hours)`; denied (state unchanged) when the shield is
still active or `points < cost`; otherwise `points -= cost` and one
`('shield_buy', -cost, 0)` transaction. -/
def escudoBuy (s : EconState) (uid : Nat) (hours : Nat)
    (shieldActive : Bool) : EconState :=
  let cost : Int := max 1 (5 * (hours : Int))
  if shieldActive then s
  else if (s.accounts uid).points < cost then s
  else
    { s with
      accounts := updAcct s.accounts uid
        (fun a => { a with points := a.points - cost })
      txns := s.txns ++ [⟨uid, "shield_buy", -cost, 0⟩] }

/-- `RobberyCog._apply_rob_success` (robbery.py 566-594): under a row
lock, `actual = min(potential, victim_points)`; when `actual <= 0` the
"empty robbery" branch returns with no write at all; otherwise the
victim is debited, the attacker credited, one `robberies` row and the
`('rob_win', +actual, 0)` / `('rob_lose', -actual, 0)` transaction pair
are inserted.  No `answer_history` insert appears in this function. -/
def applyRobSuccess (s : EconState) (att vic : Nat) (potential : Int) :
    EconState :=
  let vicPts := (s.accounts vic).points
  let actual := min potential vicPts
  if actual ≤ 0 then s
  else
    { s with
      accounts := updAcct
        (updAcct s.accounts vic (fun a => { a with points := a.points - actual }))
        att (fun a => { a with points := a.points + actual })
      robberies := s.robberies ++ [⟨att, vic, true, actual⟩]
      txns := s.txns ++ [⟨att, "rob_win", actual, 0⟩, ⟨vic, "rob_lose", -actual, 0⟩] }

/-- `RobberyCog._apply_rob_failure` (robbery.py 611-623): under a row
lock, `actual_loss = min(loss, max(0, attacker_points))`; the attacker's
points become `GREATEST(0, points - actual_loss)` and a `robberies` row
with `-actual_loss` is inserted.  The `transactions` INSERT at line 622
passes five arguments for six placeholders (the `tx_type` value is
missing), so that statement raises and no transactions row is written. -/
def applyRobFailure (s : EconState) (att vic : Nat) (loss : Int) :
    EconState :=
  let attPts := (s.accounts att).points
  let actual := min loss (max 0 attPts)
  { s with
    accounts := updAcct s.accounts att
      (fun a => { a with points := max 0 (a.points - actual) })
    robberies := s.robberies ++ [⟨att, vic, false, -actual⟩] }

/-- `AdminCog.give` with `currency="both"` (admin.py 469-492): both
balances clamped at zero, one `('admin', amount, amount)` transaction
recording the requested deltas. -/
def adminGive (s : EconState) (uid : Nat) (amount : Int) : EconState :=
  { s with
    accounts := updAcct s.accounts uid
      (fun a => { a with
        points := max 0 (a.points + amount)
        money := max 0 (a.money + amount) })
    txns := s.txns ++ [⟨uid, "admin", amount, amount⟩] }

/-- `_save_question` (robbery.py 681-697 / daily.py 466-479): append a
`questions` row. -/
def saveQuestion (s : EconState) (qid : Nat) : EconState :=
  { s with questions := s.questions ++ [qid] }

/-- The balance-mutating operations reachable through the cogs'
commands, one constructor per source settlement path. -/
inductive EconOp
  | daily (uid : Nat) (p : Int)
  | quiz (uid : Nat) (p : Int)
  | gold (uid : Nat) (p : Int)
  | shield (uid : Nat) (hours : Nat) (shieldActive : Bool)
  | robSuccess (att vic : Nat) (potential : Int)
  | robFailure (att vic : Nat) (loss : Int)
  | admin (uid : Nat) (amount : Int)
  deriving Repr, DecidableEq

def applyOp (s : EconState) : EconOp → EconState
  | .daily uid p => dailyUpdateUserPoints s uid p
  | .quiz uid p => quizUpdateUserPoints s uid p
  | .gold uid p => goldWinSettle s uid p
  | .shield uid hours act => escudoBuy s uid hours act
  | .robSuccess att vic potential => applyRobSuccess s att vic potential
  | .robFailure att vic loss => applyRobFailure s att vic loss
  | .admin uid amount => adminGive s uid amount

def applyOps (s : EconState) : List EconOp → EconState
  | [] => s
  | op :: rest => applyOps (applyOp s op) rest

/-- The reward credits handed to the settlement paths are non-negative
(daily/quiz totals are `int((base + bonus) * multiplier)` with
non-negative factors, gold totals are `base_reward + jackpot ≥ 0`). -/
def opCreditNonneg : EconOp → Prop
  | .daily _ p => 0 ≤ p
  | .quiz _ p => 0 ≤ p
  | .gold _ p => 0 ≤ p
  | _ => True

/-- All balances of a state are non-negative. -/
def balancesNonneg (s : EconState) : Prop :=
  ∀ u, 0 ≤ (s.accounts u).points ∧ 0 ≤ (s.accounts u).money

/-- Sum of `points_delta` over a user's transactions. -/
def txnPointsSum (s : EconState) (uid : Nat) : Int :=
  ((s.txns.filter (fun t => t.userId = uid)).map (fun t => t.pointsDelta)).sum

/-- Sum of `money_delta` over a user's transactions. -/
def txnMoneySum (s : EconState) (uid : Nat) : Int :=
  ((s.txns.filter (fun t => t.userId = uid)).map (fun t => t.moneyDelta)).sum

/-- An all-zero ledger with empty history tables. -/
def initialState : EconState :=
  { accounts := fun _ => ⟨0, 0, 0⟩
    txns := []
    robberies := []
    answerHistory := []
    questions := [] }

/-! ## Daily streak computation (daily.py) -/

/-- Streak computation in `DailyCog.daily` (daily.py 157-173):
`last_daily` null gives streak 1; elapsed hours at most 48 continues the
streak; otherwise it restarts at 1. -/
def dailyNewStreak (elapsedHours : Option ℚ) (currentStreak : Nat) : Nat :=
  match elapsedHours with
  | none => 1
  | some h => if h ≤ 48 then currentStreak + 1 else 1

/-- Streak bonus (daily.py 176-177):
`min((new_streak - 1) * 2, 20)`, over the integers as in Python. -/
def streakBonus (newStreak : Nat) : Int :=
  min (((newStreak : Int) - 1) * 2) 20

/-- Python's `int()` on a rational value: truncation toward zero. -/
def pyInt (q : ℚ) : Int :=
  if 0 ≤ q then ⌊q⌋ else ⌈q⌉

/-- Total daily reward (daily.py 182):
`int((base_points + streak_bonus) * multiplier)`. -/
def dailyTotalPoints (basePoints : Nat) (newStreak : Nat) (multiplier : ℚ) :
    Int :=
  pyInt (((basePoints : ℚ) + (streakBonus newStreak : ℚ)) * multiplier)

/-- Outcome of the daily answer window. -/
inductive DailyOutcome
  | correct
  | wrong
  | timeout
  deriving Repr, DecidableEq

/-- The streak value stored by `_update_daily` at the end of
`DailyCog.daily` (daily.py 239-298): the freshly computed streak on a
correct answer, `0` on a wrong answer or timeout. -/
def dailyStoredStreak (newStreak : Nat) : DailyOutcome → Nat
  | .correct => newStreak
  | .wrong => 0
  | .timeout => 0

/-- The points credited at the end of `DailyCog.daily`: `total_points`
via `_update_user_points` on a correct answer, nothing otherwise. -/
def dailyCreditedPoints (basePoints : Nat) (newStreak : Nat)
    (multiplier : ℚ) : DailyOutcome → Int
  | .correct => dailyTotalPoints basePoints newStreak multiplier
  | .wrong => 0
  | .timeout => 0

/-! ## Golden Event answer window (gold.py, `GoldQuestionView`) -/

/-- The in-memory state of one `GoldQuestionView`: the `finished` flag,
the recorded winner, and the per-event set of users who already
attempted.  All three are read and written only inside the
`async with self._lock` critical section. -/
structure GoldView where
  finished : Bool
  winnerId : Option Nat
  answered : List Nat
  deriving Repr, DecidableEq

/-- A fresh view as built by `GoldQuestionView.__init__` (gold.py 26-35):
not finished, no winner, nobody has attempted. -/
def freshGoldView : GoldView :=
  ⟨false, none, []⟩

/-- One lock-protected execution of the button callback made by
`GoldQuestionView._make_callback` (gold.py 48-98): reject when
`finished`, reject a repeated attempt, otherwise record the attempt and
— on a correct answer — set the winner and flip `finished` inside the
same critical section. -/
def goldSubmit (v : GoldView) (uid : Nat) (correct : Bool) : GoldView :=
  if v.finished then v
  else if uid ∈ v.answered then v
  else
    let v' := { v with answered := uid :: v.answered }
    if correct then { v' with finished := true, winnerId := some uid }
    else v'

/-- `GoldQuestionView.on_timeout` (gold.py 100-109): mark finished,
leaving the winner unchanged. -/
def goldTimeout (v : GoldView) : GoldView :=
  { v with finished := true }

/-- Run a serialized sequence of submissions (the lock admits exactly
these interleavings). -/
def goldRun (v : GoldView) : List (Nat × Bool) → GoldView
  | [] => v
  | (u, c) :: rest => goldRun (goldSubmit v u c) rest

/-- The users recorded as winner at some step of a run (a user is
recorded when the step changes the `winnerId` field). -/
def winnersRecorded (v : GoldView) : List (Nat × Bool) → List Nat
  | [] => []
  | (u, c) :: rest =>
      (if (goldSubmit v u c).winnerId ≠ v.winnerId then [u] else [])
      ++ winnersRecorded (goldSubmit v u c) rest

/-! ## Golden Event rows and jackpot accumulation (gold.py, `GoldCog`) -/

/-- One `gold_events` row (gold.py 258-263). -/
structure GoldEvent where
  eventId : Nat
  rewardPoints : Int
  jackpot : Int
  winnerId : Option Nat
  isActive : Bool
  deriving Repr, DecidableEq

/-- The accumulated jackpot query (gold.py 217-224):
`SUM(jackpot)` over the guild's rows with
`winner_id IS NULL AND is_active = FALSE`. -/
def accumulatedJackpot (evs : List GoldEvent) : Int :=
  ((evs.filter (fun e => e.winnerId = none ∧ e.isActive = false)).map
    (fun e => e.jackpot)).sum

/-- Event insertion in `_launch_gold_event` (gold.py 227-263):
`reward_points = base_reward + accumulated_jackpot`,
`jackpot = base_reward`, `is_active = TRUE`, no winner. -/
def launchGoldEvent (evs : List GoldEvent) (eid : Nat) (base : Int) :
    List GoldEvent :=
  evs ++ [⟨eid, base + accumulatedJackpot evs, base, none, true⟩]

/-- No-winner close (gold.py 405-410): `is_active = FALSE` on that row;
`jackpot` keeps the `base_reward` written at insertion. -/
def closeNoWinner (evs : List GoldEvent) (eid : Nat) : List GoldEvent :=
  evs.map (fun e => if e.eventId = eid then { e with isActive := false } else e)

/-- Winner close (gold.py 372-383): set `winner_id`, `is_active = FALSE`
and `jackpot = 0` on the event row, then zero the `jackpot` of every
row with `winner_id IS NULL AND is_active = FALSE`. -/
def closeWinner (evs : List GoldEvent) (eid : Nat) (w : Nat) :
    List GoldEvent :=
  (evs.map (fun e =>
    if e.eventId = eid then
      { e with winnerId := some w, isActive := false, jackpot := 0 }
    else e)).map (fun e =>
      if e.winnerId = none ∧ e.isActive = false then { e with jackpot := 0 }
      else e)

/-! ## Golden Event scheduler tick (gold.py, `gold_scheduler`) -/

/-- The per-guild trigger decision of one scheduler tick
(gold.py 150-189).  `active` is the in-memory active-event flag;
`elapsedSinceEnd` is `(now - last ended_at)` in minutes when the
guild's latest `gold_events` row exists and has a non-null `ended_at`,
and `none` otherwise; `draw` is the `random.random()` sample.  The
tick launches when `draw` does not exceed the computed probability.
In the `none` branch the source draws with fixed probability `0.10`
and consults neither `min_interval` nor any elapsed time, although
the comment above it announces waiting at least `min_interval`. -/
def goldSchedulerDecision (active : Bool) (elapsedSinceEnd : Option ℚ)
    (minInterval maxInterval : ℚ) (draw : ℚ) : Bool :=
  if active then false
  else
    match elapsedSinceEnd with
    | some elapsed =>
        if elapsed < minInterval then false
        else
          decide (draw ≤ min 1 ((elapsed - minInterval) / (maxInterval - minInterval)))
    | none => decide (draw ≤ 1/10)

/-! ## Robbery request validation (robbery.py, `robar`) -/

/-- The denial reasons of `RobberyCog.robar`'s validation gate, plus the
minimum-currency denial that only the specification describes. -/
inductive RobDenial
  | selfRobbery
  | victimIsBot
  | victimTooNew
  | victimShielded
  | cooldownActive
  | dailyCapReached
  | victimBelowMinimum
  deriving Repr, DecidableEq

/-- The inputs of the validation gate: the two member objects, the
victim's and the attacker's `users` rows, the guild configuration and
the current time (seconds). -/
structure RobarRequest where
  attackerId : Nat
  victimId : Nat
  victimIsBot : Bool
  victimCreatedAt : ℚ
  victimShieldUntil : Option ℚ
  victimMoney : Int
  victimPoints : Int
  attackerLastRobbery : Option ℚ
  attackerRobberiesToday : Nat
  robberyCooldownMin : ℚ
  maxRobberiesDaily : Nat
  minMoneyToRob : Int
  now : ℚ
  deriving Repr, DecidableEq

/-- The validation gate of `RobberyCog.robar` (robbery.py 363-438), in
source order: self-robbery, bot victim, victim created within 24 hours,
active shield, attacker cooldown, daily cap.  The function reads
neither `victimMoney` nor `victimPoints` nor `minMoneyToRob`: no check
against the configured `min_money_to_rob` appears in the source. -/
def robarValidate (r : RobarRequest) : Option RobDenial :=
  if r.victimId = r.attackerId then some .selfRobbery
  else if r.victimIsBot then some .victimIsBot
  else if r.now - 24 * 3600 < r.victimCreatedAt then some .victimTooNew
  else if (match r.victimShieldUntil with
           | some t => decide (r.now < t)
           | none => false) then some .victimShielded
  else if (match r.attackerLastRobbery with
           | some t => decide (0 < r.robberyCooldownMin * 60 - (r.now - t))
           | none => false) then some .cooldownActive
  else if r.maxRobberiesDaily ≤ r.attackerRobberiesToday then
    some .dailyCapReached
  else none

/-- Modelled from the spec: the validation gate as §4.3 of the
specification orders it, with the check "victim's currency ≥ configured
minimum" (`min_money_to_rob`) between the shield check and the cooldown
check.  This check is absent from `robar` in the source. -/
def robarValidateSpec (r : RobarRequest) : Option RobDenial :=
  if r.victimId = r.attackerId then some .selfRobbery
  else if r.victimIsBot then some .victimIsBot
  else if r.now - 24 * 3600 < r.victimCreatedAt then some .victimTooNew
  else if (match r.victimShieldUntil with
           | some t => decide (r.now < t)
           | none => false) then some .victimShielded
  else if r.victimMoney < r.minMoneyToRob then some .victimBelowMinimum
  else if (match r.attackerLastRobbery with
           | some t => decide (0 < r.robberyCooldownMin * 60 - (r.now - t))
           | none => false) then some .cooldownActive
  else if r.maxRobberiesDaily ≤ r.attackerRobberiesToday then
    some .dailyCapReached
  else none

/-! ## Helper lemmas -/

lemma updAcct_same (f : Nat → Account) (uid : Nat) (g : Account → Account) :
    updAcct f uid g uid = g (f uid) := by
  simp [updAcct]

lemma updAcct_other (f : Nat → Account) (uid u : Nat) (g : Account → Account)
    (h : u ≠ uid) : updAcct f uid g u = f u := by
  simp [updAcct, h]

/-! ## C4 — robbery success transfer is clamped to the live balance -/

/-- C4: in `_apply_rob_success` the actually transferred amount equals
`min(potential, victim_points)` read under the row lock, and therefore
never exceeds the victim's live balance at settlement time. -/
theorem rob_success_steal_clamped (s : EconState) (att vic : Nat)
    (potential : Int) (hne : att ≠ vic)
    (hv : 0 ≤ (s.accounts vic).points) (hp : 0 ≤ potential) :
    (s.accounts vic).points
        - ((applyRobSuccess s att vic potential).accounts vic).points
      = min potential (s.accounts vic).points ∧
    (s.accounts vic).points
        - ((applyRobSuccess s att vic potential).accounts vic).points
      ≤ (s.accounts vic).points := by
  unfold applyRobSuccess
  dsimp only
  split_ifs with hA
  · simp only [inf_eq_min] at hA ⊢
    constructor <;> omega
  · simp [updAcct, Ne.symm hne, inf_eq_min] at hA ⊢

/-- Witness for `rob_success_steal_clamped`: Scenario D of the spec — a
victim with 5 points against a potential steal of 20 loses exactly 5. -/
theorem rob_success_steal_clamped_witness :
    ((initialState.accounts 2).points ≤ 5) ∧
    ((applyRobSuccess
        { initialState with
          accounts := updAcct initialState.accounts 2
            (fun a => { a with points := 5 }) } 1 2 20).accounts 2).points = 0 := by
  have h := rob_success_steal_clamped
    { initialState with
      accounts := updAcct initialState.accounts 2 (fun a => { a with points := 5 }) }
    1 2 20 (by decide) (by decide) (by decide)
  refine ⟨by decide, ?_⟩
  have h1 := h.1
  revert h1
  decide

/-! ## C6 — daily streak law and reward formula -/

/-- C6: the daily streak is 1 on a first claim, previous + 1 when the
elapsed time is at most 48 hours, 1 when more than 48 hours; a wrong
answer or a timeout stores streak 0; a correct answer credits
`floor((base + min((streak - 1) * 2, 20)) * multiplier)` points. -/
theorem daily_streak_law (prev ns basePoints : Nat) (h m : ℚ)
    (hm : 0 ≤ m) (hns : 1 ≤ ns) :
    dailyNewStreak none prev = 1 ∧
    (h ≤ 48 → dailyNewStreak (some h) prev = prev + 1) ∧
    (48 < h → dailyNewStreak (some h) prev = 1) ∧
    dailyStoredStreak ns .wrong = 0 ∧
    dailyStoredStreak ns .timeout = 0 ∧
    dailyStoredStreak ns .correct = ns ∧
    dailyCreditedPoints basePoints ns m .correct
      = ⌊((basePoints : ℚ) + min (((ns : ℚ) - 1) * 2) 20) * m⌋ := by
  refine ⟨rfl, ?_, ?_, rfl, rfl, rfl, ?_⟩
  · intro hh
    simp [dailyNewStreak, hh]
  · intro hh
    simp [dailyNewStreak, not_le.mpr hh]
  · have hbonus : (0 : Int) ≤ streakBonus ns := by
      unfold streakBonus
      have : (1 : Int) ≤ (ns : Int) := by exact_mod_cast hns
      omega
    have hcast : ((streakBonus ns : Int) : ℚ) = min (((ns : ℚ) - 1) * 2) 20 := by
      unfold streakBonus
      push_cast
      ring_nf
    have hfac : (0 : ℚ) ≤ (basePoints : ℚ) + (streakBonus ns : ℚ) := by
      have h1 : (0 : ℚ) ≤ (basePoints : ℚ) := by positivity
      have h2 : (0 : ℚ) ≤ ((streakBonus ns : Int) : ℚ) := by exact_mod_cast hbonus
      linarith
    unfold dailyCreditedPoints dailyTotalPoints pyInt
    rw [if_pos (mul_nonneg hfac hm), hcast]

/-- Witness for `daily_streak_law`: Scenario B of the spec — third
consecutive day at 24 elapsed hours, base 10, multiplier 1 pays 14. -/
theorem daily_streak_law_witness :
    dailyNewStreak (some 24) 2 = 3 ∧
    dailyCreditedPoints 10 3 1 .correct = 14 := by
  have h := daily_streak_law 2 3 10 24 1 (by norm_num) (by norm_num)
  refine ⟨h.2.1 (by norm_num), ?_⟩
  rw [h.2.2.2.2.2.2]
  norm_num

/-! ## C7 — robbery validation gate -/

/-- A request in which every check implemented by `robar` passes while
the victim's balances (0) are far below the configured
`min_money_to_rob` (100): old account, no shield, no cooldown, no
attempts today. -/
def c7Request : RobarRequest :=
  { attackerId := 1
    victimId := 2
    victimIsBot := false
    victimCreatedAt := 0
    victimShieldUntil := none
    victimMoney := 0
    victimPoints := 0
    attackerLastRobbery := none
    attackerRobberiesToday := 0
    robberyCooldownMin := 5
    maxRobberiesDaily := 5
    minMoneyToRob := 100
    now := 1000000 }

/-- C7: the validation gate of `robar` never consults the configured
minimum victim currency — a victim whose balance (0) is below
`min_money_to_rob` (100) passes validation, while the gate described by
the specification would deny the request at that check. -/
theorem robar_validation_skips_min_money :
    robarValidate c7Request = none ∧
    c7Request.victimMoney < c7Request.minMoneyToRob ∧
    c7Request.victimPoints < c7Request.minMoneyToRob ∧
    robarValidateSpec c7Request = some .victimBelowMinimum := by
  refine ⟨?_, by norm_num [c7Request], by norm_num [c7Request], ?_⟩ <;>
    norm_num [robarValidate, robarValidateSpec, c7Request]

/-! ## C8 — empty robbery -/

/-- A ledger in which the attacker (user 1) holds 50 points and the
victim (user 2) holds none. -/
def emptyVictimState : EconState :=
  { initialState with
    accounts := updAcct initialState.accounts 1
      (fun a => { a with points := 50 }) }

/-- C8 counterexample: settling a successful robbery against a victim
with zero balance records no answer-history row (the robbery flow never
inserts into `answer_history`), contrary to the claim that an Answer
History Entry is still recorded. -/
theorem empty_robbery_no_answer_history :
    (applyRobSuccess (saveQuestion emptyVictimState 7) 1 2 20).answerHistory
      = [] := by
  decide

/-- C8 (amended): when the victim's live balance is not positive at
settlement, the empty-robbery branch leaves every balance and every
history table unchanged; the question saved before the answer window is
the only record — no Answer History Entry, no robbery row and no
transaction is written. -/
theorem empty_robbery_is_noop (s : EconState) (att vic : Nat)
    (potential : Int) (qid : Nat) (hv : (s.accounts vic).points ≤ 0) :
    (applyRobSuccess (saveQuestion s qid) att vic potential).questions
        = s.questions ++ [qid] ∧
    (applyRobSuccess (saveQuestion s qid) att vic potential).accounts
        = s.accounts ∧
    (applyRobSuccess (saveQuestion s qid) att vic potential).txns = s.txns ∧
    (applyRobSuccess (saveQuestion s qid) att vic potential).robberies
        = s.robberies ∧
    (applyRobSuccess (saveQuestion s qid) att vic potential).answerHistory
        = s.answerHistory := by
  have hA : min potential ((saveQuestion s qid).accounts vic).points ≤ 0 :=
    le_trans (min_le_right _ _) hv
  unfold applyRobSuccess
  dsimp only
  rw [if_pos hA]
  exact ⟨rfl, rfl, rfl, rfl, rfl⟩

/-- Witness for `empty_robbery_is_noop` at the concrete zero-balance
victim. -/
theorem empty_robbery_is_noop_witness :
    (applyRobSuccess (saveQuestion emptyVictimState 7) 1 2 20).questions
        = [7] ∧
    (applyRobSuccess (saveQuestion emptyVictimState 7) 1 2 20).txns = [] := by
  have h := empty_robbery_is_noop emptyVictimState 1 2 20 7 (by decide)
  exact ⟨h.1, h.2.2.1⟩

/-! ## C9 — Golden Event scheduler -/

/-- C9: in the no-prior-event branch the scheduler trigger decision is
`draw ≤ 0.10` on every tick, with no dependence on the configured
minimum wait — with `min_interval` 30 minutes and a draw of 0.05 it
launches immediately, contrary to the claim (and to the source's own
comment) that the first event waits at least the minimum interval. -/
theorem gold_scheduler_first_event_ignores_min_wait :
    goldSchedulerDecision false none 30 60 (1/20) = true ∧
    (∀ minInterval maxInterval draw : ℚ,
      goldSchedulerDecision false none minInterval maxInterval draw
        = decide (draw ≤ 1/10)) := by
  constructor
  · norm_num [goldSchedulerDecision]
  · intro minInterval maxInterval draw
    rfl

/-! ## C10 — robbery settlement frame -/

lemma updAcct_money (f : Nat → Account) (uid u : Nat) (g : Account → Account)
    (h : ∀ a, (g a).money = a.money) :
    (updAcct f uid g u).money = (f u).money := by
  unfold updAcct
  split_ifs with h1
  · subst h1
    rw [h]
  · rfl

/-- C10: robbery settlement touches only the points balances of the two
parties — success and failure leave every user's money unchanged and
other users' rows untouched; the transaction pair a success inserts
carries money deltas of zero, and a failure appends no transaction (its
malformed INSERT raises before writing). -/
theorem robbery_settlement_money_frame (s : EconState) (att vic : Nat)
    (potential loss : Int) :
    (∀ u, ((applyRobSuccess s att vic potential).accounts u).money
        = (s.accounts u).money) ∧
    (∀ u, ((applyRobFailure s att vic loss).accounts u).money
        = (s.accounts u).money) ∧
    (∀ u, u ≠ att → u ≠ vic →
        (applyRobSuccess s att vic potential).accounts u = s.accounts u) ∧
    (∀ u, u ≠ att →
        (applyRobFailure s att vic loss).accounts u = s.accounts u) ∧
    (∃ extra, (applyRobSuccess s att vic potential).txns = s.txns ++ extra ∧
        ∀ t ∈ extra, t.moneyDelta = 0) ∧
    (applyRobFailure s att vic loss).txns = s.txns := by
  refine ⟨?_, ?_, ?_, ?_, ?_, rfl⟩
  · intro u
    unfold applyRobSuccess
    dsimp only
    split_ifs
    · rfl
    · by_cases h1 : u = att <;> by_cases h2 : u = vic <;>
        simp [updAcct, h1, h2] <;> split_ifs <;> rfl
  · intro u
    unfold applyRobFailure
    dsimp only
    by_cases h1 : u = att <;> simp [updAcct, h1]
  · intro u hu1 hu2
    unfold applyRobSuccess
    dsimp only
    split_ifs
    · rfl
    · simp [updAcct, hu1, hu2]
  · intro u hu1
    unfold applyRobFailure
    dsimp only
    simp [updAcct, hu1]
  · unfold applyRobSuccess
    dsimp only
    split_ifs
    · exact ⟨[], (List.append_nil _).symm, by simp⟩
    · refine ⟨_, rfl, ?_⟩
      intro t ht
      simp only [List.mem_cons, List.mem_singleton] at ht
      rcases ht with rfl | rfl | h
      · rfl
      · rfl
      · simp at h

/-- Witness for `robbery_settlement_money_frame` at a concrete state:
user 3's row is untouched by a successful robbery of 2 by 1. -/
theorem robbery_settlement_money_frame_witness :
    ((applyRobSuccess emptyVictimState 1 2 20).accounts 3).money
        = (emptyVictimState.accounts 3).money ∧
    (applyRobSuccess emptyVictimState 1 2 20).accounts 3
        = emptyVictimState.accounts 3 := by
  have h := robbery_settlement_money_frame emptyVictimState 1 2 20 0
  exact ⟨h.1 3, h.2.2.1 3 (by decide) (by decide)⟩

/-! ## C1 — transaction reconciliation -/

/-- C1: the reconciliation invariant fails on the robbery-failure path.
After a daily credit of 100, user 1's balance (100) equals their
transaction sum (100); a failed robbery losing 10 points then leaves
the balance at 90 while the transaction sum stays 100, because the
failure path's transactions INSERT (robbery.py 622) passes five
arguments for six placeholders — the `tx_type` value is missing — so
the statement raises and no transaction row records the debit. -/
theorem rob_failure_breaks_reconciliation :
    ((applyOps initialState [.daily 1 100]).accounts 1).points
        = txnPointsSum (applyOps initialState [.daily 1 100]) 1 ∧
    ((applyOps initialState
        [.daily 1 100, .robFailure 1 2 10]).accounts 1).points = 90 ∧
    txnPointsSum (applyOps initialState [.daily 1 100, .robFailure 1 2 10]) 1
        = 100 := by
  decide

/-! ## C2 — at most one Golden Event winner -/

lemma goldSubmit_of_finished (v : GoldView) (uid : Nat) (c : Bool)
    (h : v.finished = true) : goldSubmit v uid c = v := by
  simp [goldSubmit, h]

lemma goldSubmit_winner_change (v : GoldView) (uid : Nat) (c : Bool)
    (h : (goldSubmit v uid c).winnerId ≠ v.winnerId) :
    v.finished = false ∧ (goldSubmit v uid c).finished = true ∧
      (goldSubmit v uid c).winnerId = some uid ∧ c = true := by
  unfold goldSubmit at *
  split_ifs at * with h1 h2 h3
  · exact absurd rfl h
  · exact absurd rfl h
  · exact ⟨by simpa using h1, rfl, rfl, h3⟩
  · exact absurd rfl h

lemma goldSubmit_inv (v : GoldView) (uid : Nat) (c : Bool)
    (h : v.winnerId ≠ none → v.finished = true) :
    (goldSubmit v uid c).winnerId ≠ none →
      (goldSubmit v uid c).finished = true := by
  unfold goldSubmit
  split_ifs with h1 h2 h3
  · exact h
  · exact h
  · intro _
    rfl
  · exact h

lemma winnersRecorded_of_finished (v : GoldView) (es : List (Nat × Bool))
    (h : v.finished = true) : winnersRecorded v es = [] := by
  induction es with
  | nil => rfl
  | cons e rest ih =>
      obtain ⟨u, c⟩ := e
      simp only [winnersRecorded, goldSubmit_of_finished v u c h]
      simpa using ih

lemma winnersRecorded_length_le_one (es : List (Nat × Bool)) (v : GoldView)
    (hinv : v.winnerId ≠ none → v.finished = true) :
    (winnersRecorded v es).length ≤ 1 := by
  induction es generalizing v with
  | nil => simp [winnersRecorded]
  | cons e rest ih =>
      obtain ⟨u, c⟩ := e
      by_cases hch : (goldSubmit v u c).winnerId = v.winnerId
      · simp only [winnersRecorded]
        rw [if_neg (by simp [hch])]
        simpa using ih (goldSubmit v u c) (goldSubmit_inv v u c hinv)
      · have hc := goldSubmit_winner_change v u c hch
        simp only [winnersRecorded]
        rw [if_pos hch, winnersRecorded_of_finished _ _ hc.2.1]
        simp

/-- C2: for one Golden Event answer window, every serialized interleaving
of lock-protected submissions records at most one winner; a submission
arriving with `finished` already set leaves the view unchanged, and any
step that records a winner happens while `finished` was false, sets the
winner to that submitter and flips `finished` inside the same critical
section with the answer being correct. -/
theorem gold_event_at_most_one_winner :
    (∀ es : List (Nat × Bool), (winnersRecorded freshGoldView es).length ≤ 1) ∧
    (∀ (v : GoldView) (uid : Nat) (c : Bool), v.finished = true →
        goldSubmit v uid c = v) ∧
    (∀ (v : GoldView) (uid : Nat) (c : Bool),
        (goldSubmit v uid c).winnerId ≠ v.winnerId →
          v.finished = false ∧ (goldSubmit v uid c).finished = true ∧
            (goldSubmit v uid c).winnerId = some uid ∧ c = true) :=
  ⟨fun es => winnersRecorded_length_le_one es freshGoldView
      (fun h => absurd rfl h),
    goldSubmit_of_finished, goldSubmit_winner_change⟩

/-- Witness for `gold_event_at_most_one_winner`: two racing correct
answers record one winner; a correct answer against a finished view is
rejected unchanged; the first correct submitter becomes the winner. -/
theorem gold_event_at_most_one_winner_witness :
    (winnersRecorded freshGoldView [(1, true), (2, true)]).length ≤ 1 ∧
    goldSubmit ⟨true, some 1, [1]⟩ 2 true = ⟨true, some 1, [1]⟩ ∧
    (goldSubmit freshGoldView 3 true).winnerId = some 3 :=
  ⟨gold_event_at_most_one_winner.1 [(1, true), (2, true)],
    gold_event_at_most_one_winner.2.1 ⟨true, some 1, [1]⟩ 2 true rfl,
    (gold_event_at_most_one_winner.2.2 freshGoldView 3 true
      (by decide)).2.2.1⟩

/-! ## C3 — balances never go negative -/

lemma applyOp_nonneg (s : EconState) (op : EconOp)
    (h : balancesNonneg s) (hwf : opCreditNonneg op) :
    balancesNonneg (applyOp s op) := by
  cases op with
  | daily uid p =>
      intro u
      dsimp [applyOp, dailyUpdateUserPoints]
      obtain ⟨hp, hm⟩ := h u
      have hwf' : (0 : Int) ≤ p := hwf
      by_cases h1 : u = uid
      · subst h1
        refine ⟨?_, ?_⟩ <;> simp [updAcct] <;> omega
      · refine ⟨?_, ?_⟩ <;> simp [updAcct, h1] <;> omega
  | quiz uid p =>
      intro u
      dsimp [applyOp, quizUpdateUserPoints]
      obtain ⟨hp, hm⟩ := h u
      have hwf' : (0 : Int) ≤ p := hwf
      by_cases h1 : u = uid
      · subst h1
        refine ⟨?_, ?_⟩ <;> simp [updAcct] <;> omega
      · refine ⟨?_, ?_⟩ <;> simp [updAcct, h1] <;> omega
  | gold uid p =>
      intro u
      dsimp [applyOp, goldWinSettle]
      obtain ⟨hp, hm⟩ := h u
      have hwf' : (0 : Int) ≤ p := hwf
      by_cases h1 : u = uid
      · subst h1
        refine ⟨?_, ?_⟩ <;> simp [updAcct] <;> omega
      · refine ⟨?_, ?_⟩ <;> simp [updAcct, h1] <;> omega
  | shield uid hours act =>
      intro u
      dsimp [applyOp, escudoBuy]
      obtain ⟨hp, hm⟩ := h u
      split_ifs with hs hc
      · exact ⟨hp, hm⟩
      · exact ⟨hp, hm⟩
      · by_cases h1 : u = uid
        · subst h1
          refine ⟨?_, ?_⟩ <;> simp [updAcct] <;> omega
        · refine ⟨?_, ?_⟩ <;> simp [updAcct, h1] <;> omega
  | robSuccess att vic potential =>
      intro u
      dsimp [applyOp, applyRobSuccess]
      obtain ⟨hp, hm⟩ := h u
      have hv := (h vic).1
      split_ifs with hA
      · exact ⟨hp, hm⟩
      · by_cases h1 : u = att
        · subst h1
          by_cases h2 : u = vic
          · subst h2
            refine ⟨?_, ?_⟩ <;> simp [updAcct] <;> omega
          · refine ⟨?_, ?_⟩ <;> simp [updAcct, h2] <;> omega
        · by_cases h2 : u = vic
          · subst h2
            refine ⟨?_, ?_⟩ <;> simp [updAcct, h1] <;> omega
          · refine ⟨?_, ?_⟩ <;> simp [updAcct, h1, h2] <;> omega
  | robFailure att vic loss =>
      intro u
      dsimp [applyOp, applyRobFailure]
      obtain ⟨hp, hm⟩ := h u
      by_cases h1 : u = att
      · subst h1
        refine ⟨?_, ?_⟩ <;> simp [updAcct] <;> omega
      · refine ⟨?_, ?_⟩ <;> simp [updAcct, h1] <;> omega
  | admin uid amount =>
      intro u
      dsimp [applyOp, adminGive]
      obtain ⟨hp, hm⟩ := h u
      by_cases h1 : u = uid
      · subst h1
        refine ⟨?_, ?_⟩ <;> simp [updAcct] <;> omega
      · refine ⟨?_, ?_⟩ <;> simp [updAcct, h1] <;> omega

lemma applyOps_nonneg (ops : List EconOp) (s : EconState)
    (h : balancesNonneg s) (hwf : ∀ op ∈ ops, opCreditNonneg op) :
    balancesNonneg (applyOps s ops) := by
  induction ops generalizing s with
  | nil => exact h
  | cons op rest ih =>
      exact ih (applyOp s op)
        (applyOp_nonneg s op h (hwf op (by simp)))
        (fun o ho => hwf o (by simp [ho]))

/-- C3: starting from non-negative balances, no sequence of
balance-mutating operations (daily/quiz/gold credits, shield purchase,
robbery success or failure, admin adjustment) ever drives any user's
points or money below zero — every debit is clamped or refused. -/
theorem balances_never_negative (s : EconState) (ops : List EconOp)
    (h0 : balancesNonneg s) (hops : ∀ op ∈ ops, opCreditNonneg op) :
    balancesNonneg (applyOps s ops) :=
  applyOps_nonneg ops s h0 hops

/-- Witness for `balances_never_negative`: a daily credit followed by a
failed robbery and a shield purchase leaves user 1 non-negative. -/
theorem balances_never_negative_witness :
    0 ≤ ((applyOps initialState
        [.daily 1 10, .robFailure 1 2 5, .shield 1 1 false]).accounts 1).points := by
  have h := balances_never_negative initialState
    [.daily 1 10, .robFailure 1 2 5, .shield 1 1 false]
    (fun u => ⟨le_refl 0, le_refl 0⟩)
    (by
      intro op hop
      simp only [List.mem_cons, List.not_mem_nil, or_false] at hop
      rcases hop with rfl | rfl | rfl
      · show (0 : Int) ≤ 10
        decide
      · trivial
      · trivial)
  exact (h 1).1

/-! ## C5 — jackpot conservation -/

lemma accumulatedJackpot_append (l1 l2 : List GoldEvent) :
    accumulatedJackpot (l1 ++ l2)
      = accumulatedJackpot l1 + accumulatedJackpot l2 := by
  simp [accumulatedJackpot, List.filter_append]

lemma closeNoWinner_eq_self (evs : List GoldEvent) (eid : Nat)
    (h : ∀ e ∈ evs, e.eventId ≠ eid) : closeNoWinner evs eid = evs := by
  induction evs with
  | nil => rfl
  | cons e t ih =>
      simp only [closeNoWinner, List.map_cons]
      rw [if_neg (h e (by simp))]
      congr 1
      exact ih (fun x hx => h x (by simp [hx]))

lemma accumulatedJackpot_zero_of (evs : List GoldEvent)
    (h : ∀ e ∈ evs, e.winnerId = none → e.isActive = false → e.jackpot = 0) :
    accumulatedJackpot evs = 0 := by
  unfold accumulatedJackpot
  apply List.sum_eq_zero
  intro x hx
  simp only [List.mem_map, List.mem_filter, decide_eq_true_eq] at hx
  obtain ⟨e, ⟨he, hcond⟩, rfl⟩ := hx
  exact h e he hcond.1 hcond.2

lemma closeWinner_zeroes (evs : List GoldEvent) (eid w : Nat) :
    ∀ e ∈ closeWinner evs eid w,
      e.winnerId = none → e.isActive = false → e.jackpot = 0 := by
  intro e he hw hia
  unfold closeWinner at he
  simp only [List.mem_map] at he
  obtain ⟨b, hb, rfl⟩ := he
  by_cases hc : b.winnerId = none ∧ b.isActive = false
  · simp [hc]
  · rw [if_neg hc] at hw hia ⊢
    exact absurd ⟨hw, hia⟩ hc

lemma accumulatedJackpot_closeWinner (evs : List GoldEvent) (eid w : Nat) :
    accumulatedJackpot (closeWinner evs eid w) = 0 :=
  accumulatedJackpot_zero_of _ (closeWinner_zeroes evs eid w)

/-- C5: closing a freshly launched event with no winner leaves its row
with winner null and jackpot equal to its base reward, and increases the
accumulated jackpot offered to the next launch by exactly that base
reward; closing any event list after a win zeroes every no-winner
closed row, so the accumulated jackpot sum becomes zero. -/
theorem jackpot_conservation (evs : List GoldEvent) (eid w : Nat)
    (base : Int) (hfresh : ∀ e ∈ evs, e.eventId ≠ eid) :
    (⟨eid, base + accumulatedJackpot evs, base, none, false⟩ : GoldEvent)
        ∈ closeNoWinner (launchGoldEvent evs eid base) eid ∧
    accumulatedJackpot (closeNoWinner (launchGoldEvent evs eid base) eid)
      = accumulatedJackpot evs + base ∧
    accumulatedJackpot (closeWinner evs eid w) = 0 := by
  have hsplit : closeNoWinner (launchGoldEvent evs eid base) eid
      = evs ++ [⟨eid, base + accumulatedJackpot evs, base, none, false⟩] := by
    unfold launchGoldEvent closeNoWinner
    rw [List.map_append]
    congr 1
    · exact closeNoWinner_eq_self evs eid hfresh
    · simp
  refine ⟨?_, ?_, accumulatedJackpot_closeWinner evs eid w⟩
  · rw [hsplit]
    simp
  · rw [hsplit, accumulatedJackpot_append]
    simp [accumulatedJackpot]

/-- Witness for `jackpot_conservation`: one prior no-winner round worth
30 plus a new base of 40 accumulates to 70; a win zeroes the pot. -/
theorem jackpot_conservation_witness :
    accumulatedJackpot (closeNoWinner (launchGoldEvent
        [⟨1, 30, 30, none, false⟩] 2 40) 2) = 70 ∧
    accumulatedJackpot (closeWinner [⟨1, 30, 30, none, false⟩] 2 9) = 0 := by
  have h := jackpot_conservation [⟨1, 30, 30, none, false⟩] 2 9 40 (by decide)
  refine ⟨?_, h.2.2⟩
  rw [h.2.1]
  decide

end MindHeist
